import Mathlib

attribute [local semireducible] Rat.add Rat.mul Rat.sub Rat.inv Rat.ofScientific

/-!
Shallow embedding of `src/apps/app.py` (a 128×64 clock-frame producer).

The program reads a JSON configuration from stdin, computes a wall-clock
deadline, loads a font with a built-in fallback, and in a loop renders the
current time into a fresh 128×64 RGB canvas, PNG-encodes it, and writes a
4-byte big-endian length header followed by the encoded bytes, flushing
after each frame.

External capabilities (PIL drawing/encoding, the wall clock, the local
timezone) are modelled as fields of an `Env` record of opaque functions,
as the spec treats them as opaque; `json.loads` is modelled by a concrete
JSON parser covering the full grammar `json.loads` accepts: numbers with
fraction and exponent parts and the leading-zero restriction, string
escapes including `\uXXXX` with surrogate-pair combination, strict
rejection of raw control characters inside strings, and the Python
extension literals `NaN`, `Infinity` and `-Infinity`.  Two representation
limits remain: finite numeric literals are kept as exact rationals (IEEE
rounding and overflow to infinity of huge finite literals are not
modelled), and a lone `\u` surrogate — which Python keeps as a lone
surrogate code unit — is approximated by a placeholder scalar, since Lean
strings hold only Unicode scalar values.  Neither limit affects whether a
document parses.
-/

namespace Rallyboard

/-- JSON values, as produced by `json.loads`.  `nan` and `infinity` are
the Python-extension float literals (`float("nan")`, `float("inf")`,
`float("-inf")`) that `json.loads` produces with its default
`allow_nan=True`. -/
inductive Json where
  | null
  | bool (b : Bool)
  | num (q : Rat)
  | str (s : String)
  | arr (elems : List Json)
  | obj (members : List (String × Json))
  | nan
  | infinity (neg : Bool)

/-- The opening-brace character, written by code point to keep braces out
of literals. -/
def lbrace : Char := Char.ofNat 123

/-- The closing-brace character. -/
def rbrace : Char := Char.ofNat 125

/-- Skip JSON whitespace. -/
def skipWs : List Char → List Char
  | [] => []
  | c :: cs =>
    if c = ' ' ∨ c = '\t' ∨ c = '\n' ∨ c = '\r' then skipWs cs else c :: cs

/-- Consume leading decimal digits, accumulating their value. -/
def digitsAux (acc : Nat) : List Char → Nat × List Char
  | [] => (acc, [])
  | c :: cs =>
    if c.isDigit then digitsAux (acc * 10 + (c.toNat - 48)) cs else (acc, c :: cs)

/-- Consume leading decimal digits of a fractional part, also counting them. -/
def fracAux (num k : Nat) : List Char → Nat × Nat × List Char
  | [] => (num, k, [])
  | c :: cs =>
    if c.isDigit then fracAux (num * 10 + (c.toNat - 48)) (k + 1) cs
    else (num, k, c :: cs)

/-- The value of one hexadecimal digit, as in a `\uXXXX` escape. -/
def hexVal (c : Char) : Option Nat :=
  if '0' ≤ c ∧ c ≤ '9' then some (c.toNat - 48)
  else if 'a' ≤ c ∧ c ≤ 'f' then some (c.toNat - 87)
  else if 'A' ≤ c ∧ c ≤ 'F' then some (c.toNat - 55)
  else none

/-- Parse the body of a JSON string literal (after the opening quote),
with `json.loads` strict-mode semantics: the short escapes, `\uXXXX`
escapes (a high/low surrogate pair combines into one scalar; a lone
surrogate is kept as Python does, approximated here by `Char.ofNat` since
Lean strings hold only scalar values), and raw control characters below
U+0020 are rejected. -/
def strBody : Nat → List Char → List Char → Option (String × List Char)
  | 0, _, _ => none
  | fuel + 1, acc, l =>
    match l with
    | [] => none
    | '"' :: cs => some (String.mk acc.reverse, cs)
    | '\\' :: 'u' :: a :: b :: c :: d :: '\\' :: 'u' :: a2 :: b2 :: c2 :: d2 :: cs =>
      match hexVal a, hexVal b, hexVal c, hexVal d with
      | some h1, some h2, some h3, some h4 =>
        let v := ((h1 * 16 + h2) * 16 + h3) * 16 + h4
        if 55296 ≤ v ∧ v ≤ 56319 then
          match hexVal a2, hexVal b2, hexVal c2, hexVal d2 with
          | some g1, some g2, some g3, some g4 =>
            let w := ((g1 * 16 + g2) * 16 + g3) * 16 + g4
            if 56320 ≤ w ∧ w ≤ 57343 then
              strBody fuel
                (Char.ofNat (65536 + (v - 55296) * 1024 + (w - 56320)) :: acc)
                cs
            else
              strBody fuel (Char.ofNat v :: acc)
                ('\\' :: 'u' :: a2 :: b2 :: c2 :: d2 :: cs)
          | _, _, _, _ => none
        else
          strBody fuel (Char.ofNat v :: acc)
            ('\\' :: 'u' :: a2 :: b2 :: c2 :: d2 :: cs)
      | _, _, _, _ => none
    | '\\' :: 'u' :: a :: b :: c :: d :: cs =>
      match hexVal a, hexVal b, hexVal c, hexVal d with
      | some h1, some h2, some h3, some h4 =>
        strBody fuel
          (Char.ofNat (((h1 * 16 + h2) * 16 + h3) * 16 + h4) :: acc) cs
      | _, _, _, _ => none
    | '\\' :: e :: cs =>
      if e = '"' then strBody fuel ('"' :: acc) cs
      else if e = '\\' then strBody fuel ('\\' :: acc) cs
      else if e = '/' then strBody fuel ('/' :: acc) cs
      else if e = 'n' then strBody fuel ('\n' :: acc) cs
      else if e = 't' then strBody fuel ('\t' :: acc) cs
      else if e = 'r' then strBody fuel ('\r' :: acc) cs
      else if e = 'b' then strBody fuel (Char.ofNat 8 :: acc) cs
      else if e = 'f' then strBody fuel (Char.ofNat 12 :: acc) cs
      else none
    | c :: cs =>
      if c.toNat < 32 then none else strBody fuel (c :: acc) cs

/-- Match a literal character sequence, returning the rest of the input. -/
def dropLit : List Char → List Char → Option (List Char)
  | [], cs => some cs
  | _ :: _, [] => none
  | l :: ls, c :: cs => if c = l then dropLit ls cs else none

/-- Ten to a natural power, kept first-order for easy evaluation. -/
def pow10 : Nat → Nat
  | 0 => 1
  | k + 1 => 10 * pow10 k

/-- The optional fraction part of a JSON number, maximal-munch as in the
number pattern `(\.[0-9]+)?` used by `json.loads`: consumed only when a
dot with at least one digit follows, otherwise left in place.  Returns
the fraction digits' value, their count, and the rest. -/
def parseFrac : List Char → Nat × Nat × List Char
  | '.' :: c :: cs =>
    if c.isDigit then fracAux 0 0 (c :: cs) else (0, 0, '.' :: c :: cs)
  | cs => (0, 0, cs)

/-- The optional exponent part of a JSON number, maximal-munch as in the
pattern `([eE][-+]?[0-9]+)?`: consumed only when well-formed, otherwise
left in place.  Returns the exponent's sign, its value, and the rest. -/
def parseExpPart : List Char → Bool × Nat × List Char
  | e :: '+' :: c :: cs =>
    if (e = 'e' ∨ e = 'E') ∧ c.isDigit then
      let d := digitsAux (c.toNat - 48) cs
      (false, d.1, d.2)
    else (false, 0, e :: '+' :: c :: cs)
  | e :: '-' :: c :: cs =>
    if (e = 'e' ∨ e = 'E') ∧ c.isDigit then
      let d := digitsAux (c.toNat - 48) cs
      (true, d.1, d.2)
    else (false, 0, e :: '-' :: c :: cs)
  | e :: c :: cs =>
    if (e = 'e' ∨ e = 'E') ∧ c.isDigit then
      let d := digitsAux (c.toNat - 48) cs
      (false, d.1, d.2)
    else (false, 0, e :: c :: cs)
  | cs => (false, 0, cs)

/-- Parse a JSON number following the pattern `json.loads` uses:
`-?(0|[1-9][0-9]*)(\.[0-9]+)?([eE][-+]?[0-9]+)?` — in particular the
integer part is a single `0` or starts with a nonzero digit, so in `01`
the number ends after the `0`, making the enclosing document malformed
exactly as for `json.loads`.  The value is the exact rational the
literal denotes. -/
def parseNum (cs : List Char) : Option (Rat × List Char) :=
  let p := match cs with
    | c :: rest => if c = '-' then (true, rest) else (false, cs)
    | [] => (false, cs)
  match p.2 with
  | [] => none
  | c :: cs1 =>
    if c.isDigit then
      let ip : Nat × List Char :=
        if c = '0' then (0, cs1) else digitsAux (c.toNat - 48) cs1
      let fr := parseFrac ip.2
      let ex := parseExpPart fr.2.2
      let base : Rat := (ip.1 : Rat) + (fr.1 : Rat) / ((pow10 fr.2.1 : Nat) : Rat)
      let mag : Rat :=
        if ex.1 then base / ((pow10 ex.2.1 : Nat) : Rat)
        else base * ((pow10 ex.2.1 : Nat) : Rat)
      some ((if p.1 then -mag else mag), ex.2.2)
    else none

mutual

/-- Parse one JSON value. Fuel bounds the recursion depth; the caller
supplies more fuel than the input length, which suffices since every
recursive entry follows at least one consumed character. -/
def parseVal : Nat → List Char → Option (Json × List Char)
  | 0, _ => none
  | fuel + 1, cs =>
    match skipWs cs with
    | [] => none
    | c :: rest =>
      if c = lbrace then
        match skipWs rest with
        | [] => none
        | d :: rest2 =>
          if d = rbrace then some (Json.obj [], rest2)
          else parseMembers fuel (d :: rest2) []
      else if c = '[' then
        match skipWs rest with
        | [] => none
        | d :: rest2 =>
          if d = ']' then some (Json.arr [], rest2)
          else parseElems fuel (d :: rest2) []
      else if c = '"' then
        match strBody (rest.length + 1) [] rest with
        | some (s, cs2) => some (Json.str s, cs2)
        | none => none
      else if c = 't' then
        match dropLit ['r', 'u', 'e'] rest with
        | some cs2 => some (Json.bool true, cs2)
        | none => none
      else if c = 'f' then
        match dropLit ['a', 'l', 's', 'e'] rest with
        | some cs2 => some (Json.bool false, cs2)
        | none => none
      else if c = 'n' then
        match dropLit ['u', 'l', 'l'] rest with
        | some cs2 => some (Json.null, cs2)
        | none => none
      else if c = 'N' then
        match dropLit ['a', 'N'] rest with
        | some cs2 => some (Json.nan, cs2)
        | none => none
      else if c = 'I' then
        match dropLit ['n', 'f', 'i', 'n', 'i', 't', 'y'] rest with
        | some cs2 => some (Json.infinity false, cs2)
        | none => none
      else if c = '-' ∧ rest.head? = some 'I' then
        match dropLit ['I', 'n', 'f', 'i', 'n', 'i', 't', 'y'] rest with
        | some cs2 => some (Json.infinity true, cs2)
        | none => none
      else
        match parseNum (c :: rest) with
        | some (q, cs2) => some (Json.num q, cs2)
        | none => none

/-- Parse the members of a JSON object (positioned at a key). -/
def parseMembers : Nat → List Char → List (String × Json) →
    Option (Json × List Char)
  | 0, _, _ => none
  | fuel + 1, cs, acc =>
    match skipWs cs with
    | [] => none
    | c :: rest =>
      if c = '"' then
        match strBody (rest.length + 1) [] rest with
        | none => none
        | some (k, cs2) =>
          match skipWs cs2 with
          | [] => none
          | c2 :: cs3 =>
            if c2 = ':' then
              match parseVal fuel cs3 with
              | none => none
              | some (v, cs4) =>
                match skipWs cs4 with
                | [] => none
                | c3 :: cs5 =>
                  if c3 = ',' then parseMembers fuel cs5 (acc ++ [(k, v)])
                  else if c3 = rbrace then
                    some (Json.obj (acc ++ [(k, v)]), cs5)
                  else none
            else none
      else none

/-- Parse the elements of a JSON array (positioned at a value). -/
def parseElems : Nat → List Char → List Json → Option (Json × List Char)
  | 0, _, _ => none
  | fuel + 1, cs, acc =>
    match parseVal fuel cs with
    | none => none
    | some (v, cs2) =>
      match skipWs cs2 with
      | [] => none
      | c :: cs3 =>
        if c = ',' then parseElems fuel cs3 (acc ++ [v])
        else if c = ']' then some (Json.arr (acc ++ [v]), cs3)
        else none

end

/-- Model of `json.loads`: parse a complete document, rejecting trailing
garbage; `none` models a raised `json.JSONDecodeError`. -/
def jsonParse (s : String) : Option Json :=
  match parseVal (s.length + 2) s.toList with
  | some (v, rest) => if skipWs rest = [] then some v else none
  | none => none

/-- Canvas width, `W = 128` in the source. -/
def W : Nat := 128

/-- Canvas height, `H = 64` in the source. -/
def H : Nat := 64

/-- An error raised by `ImageFont.truetype` (file missing, unreadable, ...). -/
inductive FontLoadErr where
  | ioError
  | osError
deriving DecidableEq

/-- A font resource: a loaded truetype font or PIL's built-in default
bitmap font (`ImageFont.load_default()`). -/
inductive Font where
  | truetype (path : String) (size : Nat)
  | builtinDefault
deriving DecidableEq

/-- An in-memory RGB bitmap: dimensions plus a pixel function giving the
(r, g, b) value at each coordinate. -/
structure Canvas where
  width : Nat
  height : Nat
  pix : Nat → Nat → Nat × Nat × Nat

/-- The Python exceptions the program can raise uncaught.  `fontError`
stands for an exception escaping the font-loading step; the verification
shows it is never produced, since the bare `except:` catches everything. -/
inductive PyError where
  | jsonDecodeError
  | attributeError
  | typeError
  | structError
  | fontError
deriving DecidableEq

/-- A Python float as this program can observe it: the deadline
`time.time() + duration` is a finite value, an infinity, or NaN —
Python float arithmetic and comparison never raise on any of these. -/
inductive PyFloat where
  | finite (q : Rat)
  | inf (neg : Bool)
  | nan
deriving DecidableEq

instance (n : Nat) : OfNat PyFloat n := ⟨PyFloat.finite (OfNat.ofNat n)⟩

instance : Coe Rat PyFloat := ⟨PyFloat.finite⟩

/-- Model of `t + x` for a finite float `t` (a `time.time()` reading):
finite values add exactly, an infinite or NaN addend absorbs. -/
def pyAdd (t : Rat) : PyFloat → PyFloat
  | PyFloat.finite q => PyFloat.finite (t + q)
  | PyFloat.inf neg => PyFloat.inf neg
  | PyFloat.nan => PyFloat.nan

/-- Model of `t < dl` for a finite float `t`: the usual order against a
finite bound, always true against plus infinity, always false against
minus infinity and NaN (an IEEE comparison with NaN is false). -/
def pyLt (t : Rat) : PyFloat → Bool
  | PyFloat.finite q => decide (t < q)
  | PyFloat.inf neg => !neg
  | PyFloat.nan => false

/-- The ambient capabilities the program uses, treated as opaque by the
spec: the wall clock (as the sequence of successive `time.time()` /
`time.strftime` readings), the local timezone offset in seconds, PIL's
text measurement and glyph rasterisation, and the PNG codec. -/
structure Env where
  clock : Nat → Rat
  tz : Int
  textsize : String → Font → Nat × Nat
  mask : Font → String → Int × Int → Nat → Nat → Bool
  encode : Canvas → List Nat
  decodeDims : List Nat → Option (Nat × Nat)
  fontLoad : Except FontLoadErr Font

/-- Model of `Image.new("RGB", (w, h))`: a fresh canvas whose pixels are
all black `(0, 0, 0)` (PIL's default initial color). -/
def newImage (w h : Nat) : Canvas :=
  { width := w, height := h, pix := fun _ _ => (0, 0, 0) }

/-- Model of `ImageDraw.Draw(img).text(origin, s, fill, font)`: every pixel
covered by the glyph mask anchored at `origin` takes the fill color, every
other pixel is unchanged.  No bounds check is performed. -/
def drawText (maskFn : Font → String → Int × Int → Nat → Nat → Bool)
    (img : Canvas) (origin : Int × Int) (s : String)
    (fill : Nat × Nat × Nat) (font : Font) : Canvas :=
  { img with pix := fun x y => if maskFn font s origin x y then fill else img.pix x y }

/-- A zero-padded two-digit decimal rendering, as in `strftime`. -/
def twoDigits (n : Nat) : String :=
  String.mk [Char.ofNat (48 + n / 10), Char.ofNat (48 + n % 10)]

/-- Format a second-of-day count as `HH:MM:SS` (24-hour, zero-padded),
the result of `time.strftime("%H:%M:%S")`. -/
def fmtHMS (n : Nat) : String :=
  twoDigits (n / 3600) ++ ":" ++ twoDigits (n / 60 % 60) ++ ":" ++ twoDigits (n % 60)

/-- The local second-of-day of wall-clock timestamp `t` (strftime works at
whole-second resolution on the local time). -/
def secOfDay (env : Env) (t : Rat) : Nat :=
  ((Rat.floor t + env.tz) % 86400).toNat

/-- The string `s = time.strftime("%H:%M:%S")` for clock reading `t`. -/
def timeString (env : Env) (t : Rat) : String :=
  fmtHMS (secOfDay env t)

/-- The text origin `((W - tw) // 2, (H - th) // 2)` computed by the
source with Python floor division, where `(tw, th) = d.textsize(s, font)`. -/
def textOrigin (env : Env) (font : Font) (s : String) : Int × Int :=
  let wh := env.textsize s font
  (((W : Int) - (wh.1 : Int)).fdiv 2, ((H : Int) - (wh.2 : Int)).fdiv 2)

/-- One render step of the loop body: fresh 128×64 black canvas, current
time string, centered white text. -/
def renderFrame (env : Env) (font : Font) (t : Rat) : Canvas :=
  let s := timeString env t
  drawText env.mask (newImage W H) (textOrigin env font s) s (255, 255, 255) font

/-- Model of `struct.pack("!I", n)`: the four big-endian bytes of `n`. -/
def packBE32 (n : Nat) : List Nat :=
  [n / 16777216 % 256, n / 65536 % 256, n / 256 % 256, n % 256]

/-- Read four bytes as a big-endian unsigned integer. -/
def readBE32 : List Nat → Nat
  | b0 :: b1 :: b2 :: b3 :: _ => ((b0 * 256 + b1) * 256 + b2) * 256 + b3
  | _ => 0

/-- One emitted frame: the bytes written for it (header then buffer) and
whether the stream was flushed before `send` returned. -/
structure Frame where
  bytes : List Nat
  flushed : Bool
deriving DecidableEq

/-- Model of `send(img)`: encode, write the 4-byte big-endian length
header then the buffer, and flush.  `struct.pack("!I", n)` raises
`struct.error` when `n` does not fit 32 bits. -/
def send (env : Env) (img : Canvas) : Except PyError Frame :=
  let blob := env.encode img
  if blob.length < 4294967296 then
    Except.ok { bytes := packBE32 blob.length ++ blob, flushed := true }
  else
    Except.error PyError.structError

/-- The observable outcome of a run: the frames emitted, and whether the
process ended normally or crashed on an uncaught exception. -/
inductive Result where
  | normal (frames : List Frame)
  | crashed (frames : List Frame) (e : PyError)
deriving DecidableEq

/-- The frames emitted during a run, crashed or not. -/
def Result.frames : Result → List Frame
  | Result.normal fs => fs
  | Result.crashed fs _ => fs

/-- Model of the `try: font = ImageFont.truetype(...) except: font =
ImageFont.load_default()` block: the loader is total — the preferred font
on success, the built-in default on any error. -/
def loadFont : Except FontLoadErr Font → Font
  | Except.ok f => f
  | Except.error _ => Font.builtinDefault

/-- The preferred font asset path in the source. -/
def preferredFontPath : String :=
  "/usr/share/fonts/truetype/freefont/FreeSans.ttf"

/-- Key lookup in a parsed JSON object; with duplicate keys the last
occurrence wins, as in Python dicts built by `json.loads`. -/
def lookupKey (kvs : List (String × Json)) (k : String) : Option Json :=
  (kvs.reverse.find? (fun kv => kv.1 == k)).map Prod.snd

/-- Model of `params.get(k, dflt)`: a dictionary lookup with default; on
any non-dict value the attribute access raises `AttributeError`. -/
def dictGet (j : Json) (k : String) (dflt : Json) : Except PyError Json :=
  match j with
  | Json.obj kvs => Except.ok ((lookupKey kvs k).getD dflt)
  | _ => Except.error PyError.attributeError

/-- Model of the coercion in `time.time() + x`: numbers (the NaN and
infinity floats among them) add as floats, Python bools count as 1/0,
everything else raises `TypeError`. -/
def addToTime : Json → Except PyError PyFloat
  | Json.num q => Except.ok (PyFloat.finite q)
  | Json.bool b => Except.ok (PyFloat.finite (if b then 1 else 0))
  | Json.nan => Except.ok PyFloat.nan
  | Json.infinity neg => Except.ok (PyFloat.inf neg)
  | _ => Except.error PyError.typeError

/-- The duration extracted from the parsed configuration:
`params.get("duration_sec", 10)` followed by the addition's coercion. -/
def durationOf (params : Json) : Except PyError PyFloat :=
  match dictGet params "duration_sec" (Json.num 10) with
  | Except.error e => Except.error e
  | Except.ok v => addToTime v

/-- Model of `sys.stdin.read() or "\x7b\x7d"`: only the empty string is
falsy, so only empty input is replaced by the empty-object document. -/
def effInput (input : String) : String :=
  if input = "" then "\x7b\x7d" else input

/-- Model of `params = json.loads(sys.stdin.read() or "\x7b\x7d")`. -/
def readParams (input : String) : Except PyError Json :=
  match jsonParse (effInput input) with
  | some j => Except.ok j
  | none => Except.error PyError.jsonDecodeError

/-- The `while time.time() < end:` loop.  `i` indexes the next clock
reading (the deadline check reads the clock, then `strftime` reads it
again inside the body); `fuel` bounds the number of iterations modelled. -/
def mainLoop (env : Env) (font : Font) (deadline : PyFloat) : Nat → Nat → Result
  | 0, _ => Result.normal []
  | fuel + 1, i =>
    if pyLt (env.clock i) deadline then
      match send env (renderFrame env font (env.clock (i + 1))) with
      | Except.error e => Result.crashed [] e
      | Except.ok fr =>
        match mainLoop env font deadline fuel (i + 2) with
        | Result.normal fs => Result.normal (fr :: fs)
        | Result.crashed fs e => Result.crashed (fr :: fs) e
    else Result.normal []

/-- The body of `main()` after configuration parsing: compute the
deadline `end = time.time() + duration`, load the font, run the loop. -/
def runFromJson (env : Env) (fuel : Nat) (params : Json) : Result :=
  match durationOf params with
  | Except.error e => Result.crashed [] e
  | Except.ok d =>
    mainLoop env (loadFont env.fontLoad) (pyAdd (env.clock 0) d) fuel 1

/-- Model of `main()`: read and parse the configuration, then run. -/
def main (env : Env) (fuel : Nat) (input : String) : Result :=
  match readParams input with
  | Except.error e => Result.crashed [] e
  | Except.ok params => runFromJson env fuel params

/-- The effective duration for a given stdin document. -/
def getDuration (input : String) : Except PyError PyFloat :=
  match readParams input with
  | Except.error e => Except.error e
  | Except.ok params => durationOf params

/-- The deadline `end = time.time() + params.get("duration_sec", 10)`
computed by `main` for a given stdin document. -/
def deadlineOf (env : Env) (input : String) : Except PyError PyFloat :=
  match getDuration input with
  | Except.error e => Except.error e
  | Except.ok d => Except.ok (pyAdd (env.clock 0) d)

/-- Whether pixel `(x, y)` lies in the glyph region drawn by the render
step at time `t` (the rasteriser mask at the computed centered origin). -/
@[reducible] def inGlyph (env : Env) (font : Font) (t : Rat) (x y : Nat) : Prop :=
  env.mask font (timeString env t)
    (textOrigin env font (timeString env t)) x y = true

/-- A concrete environment used to evaluate the model on closed inputs:
frozen clock, trivial codec recording only the dimensions, empty glyph
mask, failing preferred-font load. -/
def testEnv : Env where
  clock := fun _ => 0
  tz := 0
  textsize := fun _ _ => (50, 30)
  mask := fun _ _ _ _ _ => false
  encode := fun c => [c.width, c.height]
  decodeDims := fun l => match l with | [w, h] => some (w, h) | _ => none
  fontLoad := Except.error FontLoadErr.ioError

/-- A concrete environment whose measured text exceeds the canvas and
whose glyph mask covers the top-left 5×5 square. -/
def testEnvBig : Env where
  clock := fun _ => 0
  tz := 0
  textsize := fun _ _ => (200, 80)
  mask := fun _ _ _ x y => decide (x < 5) && decide (y < 5)
  encode := fun c => [c.width, c.height]
  decodeDims := fun l => match l with | [w, h] => some (w, h) | _ => none
  fontLoad := Except.ok (Font.truetype preferredFontPath 28)

/-! ### Helper lemmas -/

/-- Unpacking the 4-byte big-endian header recovers any value that fits. -/
theorem readBE32_packBE32 (n : Nat) (h : n < 4294967296) :
    readBE32 (packBE32 n) = n := by
  simp only [packBE32, readBE32]
  omega

/-- `readParams` fails only with a JSON decode error. -/
theorem readParams_error (input : String) (e : PyError)
    (h : readParams input = Except.error e) : e = PyError.jsonDecodeError := by
  rw [readParams] at h
  split at h
  · cases h
  · cases h
    rfl

/-- `addToTime` fails only with a `TypeError`. -/
theorem addToTime_error (v : Json) (e : PyError)
    (h : addToTime v = Except.error e) : e = PyError.typeError := by
  cases v <;> simp only [addToTime] at h <;> cases h <;> rfl

/-- `durationOf` fails only with an `AttributeError` or a `TypeError`. -/
theorem durationOf_error (p : Json) (e : PyError)
    (h : durationOf p = Except.error e) :
    e = PyError.attributeError ∨ e = PyError.typeError := by
  rw [durationOf] at h
  split at h
  · rename_i e1 heq
    cases h
    cases p <;> simp only [dictGet] at heq <;> cases heq <;> left <;> rfl
  · exact Or.inr (addToTime_error _ _ h)

/-- Every crash inside the frame loop is a `struct.error` from `send`. -/
theorem mainLoop_crash (env : Env) (font : Font) (dl : PyFloat) :
    ∀ fuel i fs e, mainLoop env font dl fuel i = Result.crashed fs e →
      e = PyError.structError := by
  intro fuel
  induction fuel with
  | zero =>
    intro i fs e h
    simp only [mainLoop] at h
    cases h
  | succ n ih =>
    intro i fs e h
    simp only [mainLoop] at h
    split at h
    · split at h
      · rename_i e0 heq
        cases h
        rw [send] at heq
        split at heq
        · cases heq
        · cases heq
          rfl
      · rename_i fr0 heq
        split at h
        · cases h
        · rename_i fs0 e0 hrec
          cases h
          exact ih (i + 2) fs0 e hrec
    · cases h

/-- Every frame in the loop's output was produced by a successful `send`
of a rendered frame. -/
theorem mainLoop_mem (env : Env) (font : Font) (dl : PyFloat) :
    ∀ fuel i fr, fr ∈ (mainLoop env font dl fuel i).frames →
      ∃ t : Rat, send env (renderFrame env font t) = Except.ok fr := by
  intro fuel
  induction fuel with
  | zero =>
    intro i fr h
    simp only [mainLoop, Result.frames] at h
    cases h
  | succ n ih =>
    intro i fr h
    simp only [mainLoop] at h
    split at h
    · split at h
      · simp only [Result.frames] at h
        cases h
      · rename_i fr0 heq
        split at h
        · rename_i fs hrec
          simp only [Result.frames, List.mem_cons] at h
          rcases h with h | h
          · exact ⟨env.clock (i + 1), by rw [heq, h]⟩
          · exact ih (i + 2) fr (by rw [hrec]; exact h)
        · rename_i fs e0 hrec
          simp only [Result.frames, List.mem_cons] at h
          rcases h with h | h
          · exact ⟨env.clock (i + 1), by rw [heq, h]⟩
          · exact ih (i + 2) fr (by rw [hrec]; exact h)
    · simp only [Result.frames] at h
      cases h

/-- Every frame in a full run was produced by a successful `send` of a
frame rendered with the loaded font. -/
theorem main_mem (env : Env) (fuel : Nat) (input : String) :
    ∀ fr ∈ (main env fuel input).frames,
      ∃ t : Rat,
        send env (renderFrame env (loadFont env.fontLoad) t) = Except.ok fr := by
  intro fr h
  rw [main] at h
  split at h
  · simp only [Result.frames] at h
    cases h
  · rw [runFromJson] at h
    split at h
    · simp only [Result.frames] at h
      cases h
    · exact mainLoop_mem env (loadFont env.fontLoad) _ fuel 1 fr h

/-! ### Claim theorems -/

/-- C1, counterexample: the input `"x"` is malformed (the JSON parse
fails), yet the program does not behave as it does on the empty-object
document — it crashes instead of running with the defaults. -/
theorem c1_counterexample :
    jsonParse "x" = none ∧
    main testEnv 1 "x" ≠ main testEnv 1 "\x7b\x7d" := by
  exact ⟨rfl, by decide⟩

/-- C1, amended: only the empty stdin document is treated identically to
the empty-object document; a malformed non-empty document makes the parse
error propagate uncaught — startup crashes with a JSON decode error before
any frame is emitted. -/
theorem c1_amended_behavior :
    (∀ (env : Env) (fuel : Nat) (input : String),
      input ≠ "" → jsonParse input = none →
      main env fuel input = Result.crashed [] PyError.jsonDecodeError) ∧
    (∀ (env : Env) (fuel : Nat),
      main env fuel "" = main env fuel "\x7b\x7d") := by
  constructor
  · intro env fuel input hne hparse
    rw [main, readParams, effInput, if_neg hne, hparse]
  · intro env fuel
    rfl

/-- C1, witness for the amended claim at concrete inputs. -/
theorem c1_amended_behavior_witness :
    main testEnv 1 "x" = Result.crashed [] PyError.jsonDecodeError ∧
    main testEnv 1 "" = main testEnv 1 "\x7b\x7d" :=
  ⟨c1_amended_behavior.1 testEnv 1 "x" (by decide) rfl,
   c1_amended_behavior.2 testEnv 1⟩

/-- C3: with `duration_sec = 0` the deadline equals the start reading, so
the first deadline check fails (the clock does not run backwards between
the two readings), zero frames are emitted, and the run ends normally. -/
theorem c3_zero_duration (env : Env) (fuel : Nat)
    (hclock : env.clock 0 ≤ env.clock 1) :
    main env fuel "\x7b\"duration_sec\":0\x7d" = Result.normal [] := by
  show mainLoop env (loadFont env.fontLoad)
    (PyFloat.finite (env.clock 0 + 0)) fuel 1 = Result.normal []
  cases fuel with
  | zero => rfl
  | succ n =>
    have hnot : ¬ pyLt (env.clock 1) (PyFloat.finite (env.clock 0 + 0)) = true := by
      simp only [pyLt, decide_eq_true_eq, add_zero, not_lt]
      exact hclock
    simp only [mainLoop, if_neg hnot]

/-- C3, witness: a frozen clock with `duration_sec = 0` emits no frame. -/
theorem c3_zero_duration_witness :
    main testEnv 5 "\x7b\"duration_sec\":0\x7d" = Result.normal [] :=
  c3_zero_duration testEnv 5 (le_refl 0)

/-- C5: with empty stdin or the empty-object document the effective
duration is exactly 10 seconds, and the deadline is the start reading
plus 10. -/
theorem c5_default_duration :
    getDuration "" = Except.ok 10 ∧
    getDuration "\x7b\x7d" = Except.ok 10 ∧
    ∀ env : Env,
      deadlineOf env "" = Except.ok (env.clock 0 + 10) ∧
      deadlineOf env "\x7b\x7d" = Except.ok (env.clock 0 + 10) :=
  ⟨rfl, rfl, fun _ => ⟨rfl, rfl⟩⟩

/-- C9: a negative `duration_sec` passes through unvalidated, the deadline
lies in the past, zero frames are emitted and the run ends normally — the
same observable behavior as `duration_sec = 0`. -/
theorem c9_negative_duration (env : Env) (fuel : Nat) (d : Rat)
    (hclock : env.clock 0 ≤ env.clock 1) (hd : d < 0) :
    durationOf (Json.obj [("duration_sec", Json.num d)]) = Except.ok d ∧
    runFromJson env fuel (Json.obj [("duration_sec", Json.num d)]) =
      Result.normal [] ∧
    runFromJson env fuel (Json.obj [("duration_sec", Json.num d)]) =
      runFromJson env fuel (Json.obj [("duration_sec", Json.num 0)]) := by
  have hzero : ∀ q : Rat, ¬ env.clock 1 < env.clock 0 + q → ∀ fl : Nat,
      mainLoop env (loadFont env.fontLoad)
        (PyFloat.finite (env.clock 0 + q)) fl 1 = Result.normal [] := by
    intro q hq fl
    have hq2 : ¬ pyLt (env.clock 1) (PyFloat.finite (env.clock 0 + q)) = true := by
      simp only [pyLt, decide_eq_true_eq]
      exact hq
    cases fl with
    | zero => rfl
    | succ n => simp only [mainLoop, if_neg hq2]
  have hneg : ¬ env.clock 1 < env.clock 0 + d :=
    not_lt.mpr (by linarith)
  have hz : ¬ env.clock 1 < env.clock 0 + 0 :=
    not_lt.mpr (by linarith)
  refine ⟨rfl, ?_, ?_⟩
  · show mainLoop env (loadFont env.fontLoad)
      (PyFloat.finite (env.clock 0 + d)) fuel 1 = Result.normal []
    exact hzero d hneg fuel
  · show mainLoop env (loadFont env.fontLoad)
        (PyFloat.finite (env.clock 0 + d)) fuel 1 =
      mainLoop env (loadFont env.fontLoad)
        (PyFloat.finite (env.clock 0 + 0)) fuel 1
    rw [hzero d hneg fuel, hzero 0 hz fuel]

/-- C9, witness at `duration_sec = -5` with a frozen clock. -/
theorem c9_negative_duration_witness :
    runFromJson testEnv 5 (Json.obj [("duration_sec", Json.num (-5))]) =
      Result.normal [] :=
  (c9_negative_duration testEnv 5 (-5) (le_refl 0) (by norm_num)).2.1

/-- C10: when stdin parses to a non-object JSON value the configuration
lookup raises `AttributeError`; when it parses to an object whose
`duration_sec` is a string the deadline addition raises `TypeError`; both
crash the process during startup before any frame is emitted. -/
theorem c10_bad_config_crash (env : Env) (fuel : Nat) (input : String)
    (j : Json) (hp : jsonParse (effInput input) = some j) :
    ((∀ kvs : List (String × Json), j ≠ Json.obj kvs) →
      main env fuel input = Result.crashed [] PyError.attributeError) ∧
    (∀ (kvs : List (String × Json)) (s : String), j = Json.obj kvs →
      lookupKey kvs "duration_sec" = some (Json.str s) →
      main env fuel input = Result.crashed [] PyError.typeError) := by
  have hmain : main env fuel input = runFromJson env fuel j := by
    rw [main, readParams, hp]
  constructor
  · intro hobj
    rw [hmain]
    cases j with
    | obj kvs => exact absurd rfl (hobj kvs)
    | null => rfl
    | bool b => rfl
    | num q => rfl
    | str s => rfl
    | arr xs => rfl
    | nan => rfl
    | infinity neg => rfl
  · intro kvs s hj hk
    subst hj
    rw [hmain, runFromJson, durationOf, dictGet, hk]
    rfl

/-- C10, witness: a bare number, a number in exponent notation and the
`Infinity` extension literal all crash at the lookup, and a string-valued
`duration_sec` crashes at the addition. -/
theorem c10_bad_config_crash_witness :
    main testEnv 1 "5" = Result.crashed [] PyError.attributeError ∧
    main testEnv 1 "1e5" = Result.crashed [] PyError.attributeError ∧
    main testEnv 1 "Infinity" = Result.crashed [] PyError.attributeError ∧
    main testEnv 1 "\x7b\"duration_sec\":\"soon\"\x7d" =
      Result.crashed [] PyError.typeError := by
  refine ⟨?_, ?_, ?_, ?_⟩
  · exact (c10_bad_config_crash testEnv 1 "5" (Json.num 5) (by rfl)).1
      (fun kvs h => Json.noConfusion h)
  · exact (c10_bad_config_crash testEnv 1 "1e5" (Json.num 100000) (by rfl)).1
      (fun kvs h => Json.noConfusion h)
  · exact (c10_bad_config_crash testEnv 1 "Infinity" (Json.infinity false)
      (by rfl)).1 (fun kvs h => Json.noConfusion h)
  · exact (c10_bad_config_crash testEnv 1 "\x7b\"duration_sec\":\"soon\"\x7d"
      (Json.obj [("duration_sec", Json.str "soon")]) (by rfl)).2
      [("duration_sec", Json.str "soon")] "soon" rfl rfl

/-- C2: every emitted frame consists of exactly the 4-byte big-endian
header whose value is the encoded buffer's byte length, then the buffer
verbatim, followed by a flush; reading 4 bytes as a big-endian length and
then that many bytes recovers a buffer that decodes to a 128×64 image
(for any lossless-dimensions codec, as the codec is opaque). -/
theorem c2_frame_framing (env : Env) (fuel : Nat) (input : String)
    (hdec : ∀ c : Canvas, env.decodeDims (env.encode c) = some (c.width, c.height)) :
    ∀ fr ∈ (main env fuel input).frames,
      ∃ blob : List Nat,
        fr.bytes = packBE32 blob.length ++ blob ∧
        blob.length < 4294967296 ∧
        readBE32 (fr.bytes.take 4) = blob.length ∧
        fr.bytes.drop 4 = blob ∧
        fr.flushed = true ∧
        env.decodeDims blob = some (W, H) := by
  intro fr hfr
  obtain ⟨t, hsend⟩ := main_mem env fuel input fr hfr
  simp only [send] at hsend
  split at hsend
  · rename_i hlen
    cases hsend
    exact ⟨env.encode (renderFrame env (loadFont env.fontLoad) t), rfl, hlen,
      readBE32_packBE32 _ hlen, rfl, rfl, hdec _⟩
  · cases hsend

/-- C2, witness: the single frame of a concrete run satisfies the framing
round-trip. -/
theorem c2_frame_framing_witness :
    ({ bytes := [0, 0, 0, 2, 128, 64], flushed := true } : Frame).flushed = true ∧
    testEnv.decodeDims (([0, 0, 0, 2, 128, 64] : List Nat).drop 4) = some (W, H) := by
  obtain ⟨blob, h1, h2, h3, h4, h5, h6⟩ :=
    c2_frame_framing testEnv 1 "" (fun _ => rfl)
      { bytes := [0, 0, 0, 2, 128, 64], flushed := true } (by decide)
  rw [← h4] at h6
  exact ⟨h5, h6⟩

/-- C4: the font loader is total — the preferred font on success, the
built-in fallback on any load error — and no font exception ever escapes:
no run crashes with a font error. -/
theorem c4_font_loader_total :
    (∀ f : Font, loadFont (Except.ok f) = f) ∧
    (∀ e : FontLoadErr, loadFont (Except.error e) = Font.builtinDefault) ∧
    (∀ (env : Env) (fuel : Nat) (input : String) (fs : List Frame) (e : PyError),
      main env fuel input = Result.crashed fs e → e ≠ PyError.fontError) := by
  refine ⟨fun f => rfl, fun e => rfl, ?_⟩
  intro env fuel input fs e h
  rw [main] at h
  split at h
  · rename_i e0 heq
    cases h
    rw [readParams_error input _ heq]
    decide
  · rename_i params heq
    rw [runFromJson] at h
    split at h
    · rename_i e0 heq2
      cases h
      rcases durationOf_error params _ heq2 with h1 | h1 <;> rw [h1] <;> decide
    · rename_i d heq2
      rw [mainLoop_crash env _ _ fuel 1 fs e h]
      decide

/-- C4, witness: both loader outcomes, and a concrete crash that is not a
font error. -/
theorem c4_font_loader_total_witness :
    loadFont (Except.ok (Font.truetype preferredFontPath 28)) =
      Font.truetype preferredFontPath 28 ∧
    loadFont (Except.error FontLoadErr.ioError) = Font.builtinDefault ∧
    PyError.jsonDecodeError ≠ PyError.fontError :=
  ⟨c4_font_loader_total.1 _, c4_font_loader_total.2.1 _,
   c4_font_loader_total.2.2 testEnv 1 "x" [] PyError.jsonDecodeError rfl⟩

/-- C6: the text origin is exactly `((128 - w) // 2, (64 - h) // 2)` with
integer floor division on the measured extent `(w, h)`, and the (possibly
negative) offset is used as-is — every pixel is decided by the glyph mask
at that origin, with no clipping or scaling. -/
theorem c6_centered_origin (env : Env) (font : Font) (t : Rat) (w h : Nat)
    (hsz : env.textsize (timeString env t) font = (w, h)) :
    textOrigin env font (timeString env t) =
      (((W : Int) - (w : Int)).fdiv 2, ((H : Int) - (h : Int)).fdiv 2) ∧
    renderFrame env font t =
      drawText env.mask (newImage W H)
        (((W : Int) - (w : Int)).fdiv 2, ((H : Int) - (h : Int)).fdiv 2)
        (timeString env t) (255, 255, 255) font ∧
    ∀ x y : Nat,
      (renderFrame env font t).pix x y =
        if env.mask font (timeString env t)
            (((W : Int) - (w : Int)).fdiv 2, ((H : Int) - (h : Int)).fdiv 2) x y
          then (255, 255, 255) else (0, 0, 0) := by
  have ho : textOrigin env font (timeString env t) =
      (((W : Int) - (w : Int)).fdiv 2, ((H : Int) - (h : Int)).fdiv 2) := by
    unfold textOrigin
    rw [hsz]
  refine ⟨ho, ?_, ?_⟩
  · show drawText env.mask (newImage W H)
        (textOrigin env font (timeString env t)) (timeString env t)
        (255, 255, 255) font = _
    rw [ho]
  · intro x y
    show (if env.mask font (timeString env t)
        (textOrigin env font (timeString env t)) x y
      then ((255, 255, 255) : Nat × Nat × Nat) else (0, 0, 0)) = _
    rw [ho]

/-- C6, witness: with a 200×80 measured extent the origin is the negative
pair (-36, -8) and the mask still paints pixels. -/
theorem c6_centered_origin_witness :
    textOrigin testEnvBig Font.builtinDefault (timeString testEnvBig 0) =
      (-36, -8) ∧
    (renderFrame testEnvBig Font.builtinDefault 0).pix 0 0 = (255, 255, 255) := by
  obtain ⟨h1, h2, h3⟩ :=
    c6_centered_origin testEnvBig Font.builtinDefault 0 200 80 rfl
  constructor
  · rw [h1]
    rfl
  · rw [h3 0 0]
    rfl

/-- C7: the render step is deterministic in the second-resolution
timestamp and the font — any two clock readings with the same whole
second produce identical canvases, pixel for pixel. -/
theorem c7_render_deterministic (env : Env) (font : Font) (t1 t2 : Rat)
    (hsec : Rat.floor t1 = Rat.floor t2) :
    renderFrame env font t1 = renderFrame env font t2 ∧
    ∀ x y : Nat,
      (renderFrame env font t1).pix x y = (renderFrame env font t2).pix x y := by
  have hs : timeString env t1 = timeString env t2 := by
    unfold timeString secOfDay
    rw [hsec]
  have hr : renderFrame env font t1 = renderFrame env font t2 := by
    unfold renderFrame
    rw [hs]
  exact ⟨hr, fun x y => by rw [hr]⟩

/-- C7, witness: two distinct readings inside the same second render the
same canvas. -/
theorem c7_render_deterministic_witness :
    renderFrame testEnv Font.builtinDefault (1 / 3) =
      renderFrame testEnv Font.builtinDefault (1 / 2) :=
  (c7_render_deterministic testEnv Font.builtinDefault (1 / 3) (1 / 2)
    (by rfl)).1

/-- The zero-padded two-digit rendering always has length 2. -/
theorem twoDigits_length (n : Nat) : (twoDigits n).length = 2 := rfl

/-- C8: every rendered canvas is exactly 128×64, starts from an all-black
fresh image, is white exactly on the glyph region and exactly black
outside it, and the drawn string is the current time as `HH:MM:SS`
(24-hour, zero-padded, length 8). -/
theorem c8_canvas_invariants (env : Env) (font : Font) (t : Rat) :
    (renderFrame env font t).width = 128 ∧
    (renderFrame env font t).height = 64 ∧
    (∀ x y : Nat, (newImage W H).pix x y = (0, 0, 0)) ∧
    (∀ x y : Nat, inGlyph env font t x y →
      (renderFrame env font t).pix x y = (255, 255, 255)) ∧
    (∀ x y : Nat, ¬ inGlyph env font t x y →
      (renderFrame env font t).pix x y = (0, 0, 0)) ∧
    secOfDay env t < 86400 ∧
    timeString env t =
      twoDigits (secOfDay env t / 3600) ++ ":" ++
        twoDigits (secOfDay env t / 60 % 60) ++ ":" ++
        twoDigits (secOfDay env t % 60) ∧
    secOfDay env t / 3600 < 24 ∧
    (timeString env t).length = 8 := by
  have hsec : secOfDay env t < 86400 := by
    unfold secOfDay
    have h1 : (Rat.floor t + env.tz) % 86400 < 86400 :=
      Int.emod_lt_of_pos _ (by norm_num)
    have h2 : 0 ≤ (Rat.floor t + env.tz) % 86400 :=
      Int.emod_nonneg _ (by norm_num)
    omega
  refine ⟨rfl, rfl, fun x y => rfl, ?_, ?_, hsec, rfl, by omega, ?_⟩
  · intro x y hxy
    unfold inGlyph at hxy
    show (if env.mask font (timeString env t)
        (textOrigin env font (timeString env t)) x y
      then ((255, 255, 255) : Nat × Nat × Nat) else (0, 0, 0)) = (255, 255, 255)
    simp [hxy]
  · intro x y hxy
    unfold inGlyph at hxy
    show (if env.mask font (timeString env t)
        (textOrigin env font (timeString env t)) x y
      then ((255, 255, 255) : Nat × Nat × Nat) else (0, 0, 0)) = (0, 0, 0)
    simp at hxy
    simp [hxy]
  · show (timeString env t).length = 8
    simp only [timeString, fmtHMS, String.length_append, twoDigits_length]
    decide

/-- C8, witness at a concrete environment: size, a white glyph pixel, a
black background pixel, and the 8-character time string. -/
theorem c8_canvas_invariants_witness :
    (renderFrame testEnvBig Font.builtinDefault 0).width = 128 ∧
    (renderFrame testEnvBig Font.builtinDefault 0).pix 0 0 = (255, 255, 255) ∧
    (renderFrame testEnvBig Font.builtinDefault 0).pix 10 10 = (0, 0, 0) ∧
    (timeString testEnvBig 0).length = 8 := by
  obtain ⟨h1, h2, h3, h4, h5, h6, h7, h8, h9⟩ :=
    c8_canvas_invariants testEnvBig Font.builtinDefault 0
  exact ⟨h1, h4 0 0 (by decide), h5 10 10 (by decide), h9⟩

end Rallyboard
